import Mathlib

/-!
Shallow embedding of `src/2019/picamStreamer.py` (the mjpg stream HTTP
server).  The external collaborators — the camera (`picam.PiCam`), the
detection engine (`algo.processFrame`), the JPEG encoder
(`cv2.imencode`) and the outbound socket (`self.wfile`) — are modelled
by a per-session script of outcomes; the handler itself
(`CamHandler.do_GET`, `streamDirect`, `streamAlgo`) is translated into
functions from that script to a trace of observable events plus a
session outcome.
-/

namespace PicamStreamer

/-- JPEG byte buffers, as lists of bytes. -/
abbrev Bytes := List Nat

/-- Python `p.endswith(s)` on the raw path string (line 40). -/
def endswith (p s : String) : Bool :=
  s.data.isSuffixOf p.data

/-- `os.path.basename(self.path)`: the part of the path after the last
`'/'` (line 41, POSIX basename). -/
def basenameOf (p : String) : String :=
  ⟨(p.data.reverse.takeWhile (fun c => !(c == '/'))).reverse⟩

/-- `s.split(".")[0]`: the part of a string before its first `'.'`
(line 41). -/
def stemOf (s : String) : String :=
  ⟨s.data.takeWhile (fun c => !(c == '.'))⟩

/-- `algostr = os.path.basename(self.path).split(".")[0]` (line 41). -/
def algostr (p : String) : String :=
  stemOf (basenameOf p)

/-- The static landing page `s_mainPage` (lines 25-31). -/
def s_mainPage : String :=
  "\n<html><head>\n<meta content=\"text/html;charset=utf-8\" http-equiv=\"Content-Type\">\n<meta content=\"utf-8\" http-equiv=\"encoding\">\n</head><body>\n<img src=\"/cam.mjpg\"/>\n</body></html>"

/-- The request classification performed by `do_GET` (lines 40, 53-56,
66): stream requests are exactly the paths whose raw string ends in
`.mjpg` or `.mjpeg`; among those, `algostr == "direct"` selects the
direct stream, any other stem selects the algorithm stream with that
stem as selector; anything else gets the landing page. -/
inductive StreamMode where
  | direct
  | algo (sel : String)
  | landing
deriving DecidableEq

/-- Mode resolution of `do_GET` (lines 40-41 and 53-56). -/
def resolveMode (p : String) : StreamMode :=
  if endswith p ".mjpg" || endswith p ".mjpeg" then
    if algostr p = "direct" then .direct else .algo (algostr p)
  else .landing

/-- Observable events of one `do_GET` call: wire writes to the client,
camera lifecycle, control-channel publications, and log output. -/
inductive Ev where
  /-- response 200 + `text/html` headers (lines 67-69) -/
  | respHTML
  /-- the landing page body written to `wfile` (line 70) -/
  | wHTML (body : String)
  /-- response 200 + `multipart/x-mixed-replace` headers (lines 42-45) -/
  | respStream
  /-- camera successfully acquired (`picam.PiCam(...)`, line 49) -/
  | camOpen
  /-- camera released (`cam.stop()`, line 63) -/
  | camClose
  /-- the `--jpgboundary\n` line of one part (lines 80, 114) -/
  | wBoundary
  /-- the `Content-type: image/jpeg` header of one part (lines 81, 115) -/
  | wCT
  /-- the `Content-length: n` header of one part (lines 82, 116) -/
  | wCL (n : Nat)
  /-- the blank line ending a part's headers (`end_headers`, lines 83, 117) -/
  | wBlank
  /-- the JPEG payload of one part (lines 85, 118) -/
  | wBytes (b : Bytes)
  /-- `s_comm.updateVisionState(s)` (lines 103, 106) -/
  | pubState (s : String)
  /-- `s_comm.UpdateTarget(v)` (line 104) -/
  | pubTarget (v : Int)
  /-- `print(e)` in the `except` of `do_GET` (line 59) -/
  | logExc
  /-- `print("algo exception: ...")` + traceback in `streamAlgo` (lines 124-125) -/
  | logAlgoExc
  /-- `print("done streaming ----------")` (line 61) -/
  | logDone
  /-- `print("(cam init problem)")` (line 65) -/
  | logNoCam
deriving DecidableEq

/-- Outcome of `picam.PiCam(resolution=(640,480), framerate=60,
auto=False)` (lines 49-52): success, a falsy handle (the `if not cam`
guard raises), or the constructor itself raising. -/
inductive OpenOutcome where
  | ok
  | nullCam
  | raiseOpen
deriving DecidableEq

/-- One iteration of the `capture_continuous` loop of `streamDirect`
(lines 77-87): either the camera yields a JPEG (appended to the
`BytesIO` stream) after which the client write succeeds or fails, or
the capture call raises. -/
inductive DirectStep where
  | frame (data : Bytes) (writeOk : Bool)
  | captureFail
deriving DecidableEq

/-- External outcomes of one iteration of the `while True` loop of
`streamAlgo` (lines 96-119): `pull` is `cam.next()` (line 97, `none`
means it raised), `proc` is `algo.processFrame` (lines 99-100, `none`
means it raised, otherwise the optional detection value and the
annotated frame), `enc` is `cv2.imencode` (line 108, `none` means
`rc` was falsy, otherwise the JPEG bytes), `writeOk` is whether the
client writes of lines 114-118 succeed. -/
structure AlgoStep where
  pull : Option Bytes
  proc : Option (Option Int × Bytes)
  enc : Option Bytes
  writeOk : Bool
deriving DecidableEq

/-- The external world of one `do_GET` call: the camera-open outcome,
the per-iteration scripts of both loops, whether `s_comm` is
configured (`s_comm != None`, line 101), and whether `cam.stop()`
(line 63) succeeds. -/
structure Script where
  openOutcome : OpenOutcome
  directSteps : List DirectStep
  algoSteps : List AlgoStep
  comm : Bool
  stopOk : Bool
deriving DecidableEq

/-- The five wire writes of one multipart part (lines 80-85 and
114-118): boundary line, `Content-type`, `Content-length` of the
payload, blank line, payload bytes. -/
def framedPart (b : Bytes) : List Ev :=
  [.wBoundary, .wCT, .wCL b.length, .wBlank, .wBytes b]

/-- `stream.seek(0); stream.truncate()` (lines 86-87 and 89-90). -/
def truncateBuf (_b : Bytes) : Bytes := []

/-- The `for ... in cam.cam.capture_continuous(stream, "jpeg", ...)`
loop of `streamDirect` (lines 77-87), threading the `BytesIO` buffer.
Returns the wire events, the buffer contents at loop exit (before the
`finally`), and whether an exception is propagating (a failed client
write or a failed capture).  A failed write is modelled as emitting
nothing of that iteration's part.  An exhausted step list models the
capture iterator ending, which ends the `for` loop normally. -/
def directLoop : List DirectStep → Bytes → List Ev × Bytes × Bool
  | [], buf => ([], buf, false)
  | .captureFail :: _, buf => ([], buf, true)
  | .frame d ok :: rest, buf =>
    let buf1 := buf ++ d
    if ok then
      let r := directLoop rest (truncateBuf buf1)
      (framedPart buf1 ++ r.1, r.2)
    else
      ([], buf1, true)

/-- `streamDirect` (lines 73-90): run the capture loop on an empty
`BytesIO`, then the `finally` resets the buffer unconditionally.
Returns the events, the buffer after the `finally`, and whether an
exception is propagating to `do_GET`. -/
def streamDirect (steps : List DirectStep) : List Ev × Bytes × Bool :=
  let r := directLoop steps []
  (r.1, truncateBuf r.2.1, r.2.2)

/-- Result of one iteration of the `streamAlgo` loop body: continue
with the next iteration, `break` out of the loop (the `except` of
lines 121-127), or an exception propagating out of `streamAlgo`
(`cam.next()` raising on line 97, outside the `try`). -/
inductive IterRes where
  | next
  | brokeLoop
  | raisedPull
deriving DecidableEq

/-- The control-channel step of each `streamAlgo` iteration (lines
101-106): when `s_comm` is configured, a present detection value
publishes `updateVisionState("Acquired")` then `UpdateTarget(value)`,
an absent one publishes only `updateVisionState("Searching")`; when
`s_comm` is `None` nothing is published. -/
def commPub (comm : Bool) (value : Option Int) : List Ev :=
  if comm then
    match value with
    | some v => [Ev.pubState "Acquired", Ev.pubTarget v]
    | none => [Ev.pubState "Searching"]
  else []

/-- The body of the `while True` loop of `streamAlgo` (lines 97-127)
for one iteration.  `cam.next()` raising propagates (it is outside the
`try`); a `processFrame` failure is caught, logged with traceback and
breaks; the control-channel publications of lines 101-106 happen
before encoding; a falsy `imencode` result `continue`s with no part
written; a successful encode writes one framed part; a client write
failure is caught by the same `except`, logged and breaks. -/
def algoIterBody (comm : Bool) (st : AlgoStep) : List Ev × IterRes :=
  match st.pull with
  | none => ([], .raisedPull)
  | some _ =>
    match st.proc with
    | none => ([.logAlgoExc], .brokeLoop)
    | some (value, _frame) =>
      match st.enc with
      | none => (commPub comm value, .next)
      | some jpg =>
        if st.writeOk then
          (commPub comm value ++ framedPart jpg, .next)
        else
          (commPub comm value ++ [.logAlgoExc], .brokeLoop)

/-- How the `while True` loop of `streamAlgo` ended: the finite script
ran out with the loop still running (a model truncation: the source
loop is unbounded and only ends by `break` or an exception), the loop
hit `break`, or `cam.next()` raised out of `streamAlgo`. -/
inductive AlgoExit where
  | ranOut
  | broke
  | raisedPull
deriving DecidableEq

/-- The `while True` loop of `streamAlgo` (lines 96-127) over a finite
script of iteration outcomes. -/
def streamAlgo (comm : Bool) : List AlgoStep → List Ev × AlgoExit
  | [] => ([], .ranOut)
  | st :: rest =>
    match algoIterBody comm st with
    | (evs, .next) =>
      let r := streamAlgo comm rest
      (evs ++ r.1, r.2)
    | (evs, .brokeLoop) => (evs, .broke)
    | (evs, .raisedPull) => (evs, .raisedPull)

/-- Outcome of one `do_GET` call: returned normally, an exception
propagated out of `do_GET` (only possible from `cam.stop()`, which is
outside the `try`), or the model script ran out with the algo loop
still running. -/
inductive Outcome where
  | done
  | raisedOut
  | running
deriving DecidableEq

/-- `CamHandler.do_GET` (lines 34-71).  A non-stream path gets the
landing page (lines 66-71).  A stream path sends the multipart
headers, then acquires the camera inside the `try`; acquisition
failure (constructor raising, or the `if not cam` guard) is caught,
printed, and `cam.stop()` is skipped (`cam` is falsy).  Otherwise the
resolved loop runs; an exception propagating from it is caught and
printed; then `done streaming` is printed and `cam.stop()` runs —
outside any handler, so a stop failure propagates out of `do_GET`. -/
def doGET (p : String) (sc : Script) : List Ev × Outcome :=
  match resolveMode p with
  | .landing => ([.respHTML, .wHTML s_mainPage], .done)
  | .direct =>
    match sc.openOutcome with
    | .raiseOpen => ([.respStream, .logExc, .logDone, .logNoCam], .done)
    | .nullCam => ([.respStream, .logExc, .logDone, .logNoCam], .done)
    | .ok =>
      let r := streamDirect sc.directSteps
      let tail : List Ev := if r.2.2 then [.logExc, .logDone, .camClose] else [.logDone, .camClose]
      (.respStream :: .camOpen :: r.1 ++ tail, if sc.stopOk then .done else .raisedOut)
  | .algo _ =>
    match sc.openOutcome with
    | .raiseOpen => ([.respStream, .logExc, .logDone, .logNoCam], .done)
    | .nullCam => ([.respStream, .logExc, .logDone, .logNoCam], .done)
    | .ok =>
      let r := streamAlgo sc.comm sc.algoSteps
      match r.2 with
      | .ranOut => (.respStream :: .camOpen :: r.1, .running)
      | .broke =>
        (.respStream :: .camOpen :: r.1 ++ [.logDone, .camClose],
         if sc.stopOk then .done else .raisedOut)
      | .raisedPull =>
        (.respStream :: .camOpen :: r.1 ++ [.logExc, .logDone, .camClose],
         if sc.stopOk then .done else .raisedOut)

/-! ### Trace projections -/

/-- Wire writes belonging to multipart parts. -/
def isWire : Ev → Bool
  | .wBoundary | .wCT | .wCL _ | .wBlank | .wBytes _ => true
  | _ => false

/-- The multipart wire writes of a trace, in order. -/
def wireOf (evs : List Ev) : List Ev := evs.filter isWire

/-- The JPEG payloads written, in order. -/
def payloadsOf (evs : List Ev) : List Bytes :=
  evs.filterMap fun e => match e with | .wBytes b => some b | _ => none

def isClose : Ev → Bool
  | .camClose => true
  | _ => false

def isOpenEv : Ev → Bool
  | .camOpen => true
  | _ => false

/-- Control-channel calls of a trace. -/
def isPub : Ev → Bool
  | .pubState _ => true
  | .pubTarget _ => true
  | _ => false

def commCallsOf (evs : List Ev) : List Ev := evs.filter isPub

/-- A wire trace consists of well-framed parts: each part is exactly
boundary, `Content-type`, `Content-length n`, blank, payload — with
`n` equal to the payload's byte length. -/
def wellFramed : List Ev → Bool
  | [] => true
  | .wBoundary :: .wCT :: .wCL n :: .wBlank :: .wBytes b :: rest =>
    n == b.length && wellFramed rest
  | _ => false

/-! ### Expected written frames, per script -/

/-- The capture data of the direct-loop iterations that fully write
their part, in capture order. -/
def directWritten : List DirectStep → List Bytes
  | [] => []
  | .captureFail :: _ => []
  | .frame d ok :: rest => if ok then d :: directWritten rest else []

/-- The encoded JPEGs of the algo-loop iterations that fully write
their part, in capture order. -/
def algoWritten : List AlgoStep → List Bytes
  | [] => []
  | st :: rest =>
    match st.pull, st.proc, st.enc with
    | some _, some _, some jpg =>
      if st.writeOk then jpg :: algoWritten rest else []
    | some _, some _, none => algoWritten rest
    | _, _, _ => []

/-- A fully successful algo iteration: frame pulled, detection ran,
encode succeeded, client write succeeded. -/
def stepOk (st : AlgoStep) : Bool :=
  st.pull.isSome && st.proc.isSome && st.enc.isSome && st.writeOk

/-! ### Helper lemmas about the projections -/

lemma wireOf_append (a b : List Ev) : wireOf (a ++ b) = wireOf a ++ wireOf b := by
  simp [wireOf]

lemma payloadsOf_append (a b : List Ev) :
    payloadsOf (a ++ b) = payloadsOf a ++ payloadsOf b := by
  simp [payloadsOf]

lemma commCallsOf_append (a b : List Ev) :
    commCallsOf (a ++ b) = commCallsOf a ++ commCallsOf b := by
  simp [commCallsOf]

lemma wireOf_framedPart (b : Bytes) : wireOf (framedPart b) = framedPart b := rfl

lemma payloadsOf_framedPart (b : Bytes) : payloadsOf (framedPart b) = [b] := rfl

lemma commCallsOf_framedPart (b : Bytes) : commCallsOf (framedPart b) = [] := rfl

lemma wellFramed_framedPart (b : Bytes) (rest : List Ev) :
    wellFramed (framedPart b ++ rest) = wellFramed rest := by
  simp [framedPart, wellFramed]

lemma framedPart_countP_close (b : Bytes) : (framedPart b).countP isClose = 0 := rfl

lemma framedPart_countP_open (b : Bytes) : (framedPart b).countP isOpenEv = 0 := rfl

/-! ### Helper lemmas about `commPub` -/

lemma commPub_wire (c : Bool) (v : Option Int) : wireOf (commPub c v) = [] := by
  cases c <;> cases v <;> rfl

lemma commPub_payloads (c : Bool) (v : Option Int) : payloadsOf (commPub c v) = [] := by
  cases c <;> cases v <;> rfl

lemma commPub_comm (c : Bool) (v : Option Int) : commCallsOf (commPub c v) = commPub c v := by
  cases c <;> cases v <;> rfl

lemma commPub_countP_close (c : Bool) (v : Option Int) : (commPub c v).countP isClose = 0 := by
  cases c <;> cases v <;> rfl

lemma commPub_countP_open (c : Bool) (v : Option Int) : (commPub c v).countP isOpenEv = 0 := by
  cases c <;> cases v <;> rfl

/-! ### Case equations for the `streamAlgo` loop body -/

lemma algoIterBody_pull_none (c : Bool) (st : AlgoStep) (h : st.pull = none) :
    algoIterBody c st = ([], .raisedPull) := by
  simp [algoIterBody, h]

lemma algoIterBody_proc_none (c : Bool) (st : AlgoStep) (f : Bytes)
    (hp : st.pull = some f) (h : st.proc = none) :
    algoIterBody c st = ([.logAlgoExc], .brokeLoop) := by
  simp [algoIterBody, hp, h]

lemma algoIterBody_enc_none (c : Bool) (st : AlgoStep) (f : Bytes) (v : Option Int)
    (fr : Bytes) (hp : st.pull = some f) (hpr : st.proc = some (v, fr))
    (he : st.enc = none) :
    algoIterBody c st = (commPub c v, .next) := by
  simp [algoIterBody, hp, hpr, he]

lemma algoIterBody_write_ok (c : Bool) (st : AlgoStep) (f : Bytes) (v : Option Int)
    (fr jpg : Bytes) (hp : st.pull = some f) (hpr : st.proc = some (v, fr))
    (he : st.enc = some jpg) (hw : st.writeOk = true) :
    algoIterBody c st = (commPub c v ++ framedPart jpg, .next) := by
  simp [algoIterBody, hp, hpr, he, hw]

lemma algoIterBody_write_fail (c : Bool) (st : AlgoStep) (f : Bytes) (v : Option Int)
    (fr jpg : Bytes) (hp : st.pull = some f) (hpr : st.proc = some (v, fr))
    (he : st.enc = some jpg) (hw : st.writeOk = false) :
    algoIterBody c st = (commPub c v ++ [.logAlgoExc], .brokeLoop) := by
  simp [algoIterBody, hp, hpr, he, hw]

/-! ### Small computation lemmas for concrete event lists -/

lemma payloadsOf_logAlgoExc : payloadsOf [Ev.logAlgoExc] = [] := rfl

lemma wireOf_logAlgoExc : wireOf [Ev.logAlgoExc] = [] := rfl

lemma commCallsOf_logAlgoExc : commCallsOf [Ev.logAlgoExc] = [] := rfl

/-- Every event of `commPub` is a control-channel publication. -/
lemma commPub_all_pub (c : Bool) (v : Option Int) : ∀ e ∈ commPub c v, isPub e = true := by
  intro e he
  cases c with
  | false => simp [commPub] at he
  | true =>
    rcases v with _ | x
    · simp [commPub] at he; subst he; rfl
    · simp [commPub] at he
      rcases he with rfl | rfl <;> rfl

/-! ### Loop-level lemmas: `directLoop` -/

/-- Every event emitted by the direct capture loop is a wire write. -/
lemma directLoop_all_wire : ∀ (steps : List DirectStep) (buf : Bytes),
    ∀ e ∈ (directLoop steps buf).1, isWire e = true
  | [], _ => by intro e he; simp [directLoop] at he
  | .captureFail :: _, _ => by intro e he; simp [directLoop] at he
  | .frame d ok :: rest, buf => by
    intro e he
    cases ok with
    | true =>
      simp [directLoop, framedPart] at he
      rcases he with rfl | rfl | rfl | rfl | rfl | h
      · rfl
      · rfl
      · rfl
      · rfl
      · rfl
      · exact directLoop_all_wire rest (truncateBuf (buf ++ d)) e h
    | false => simp [directLoop] at he

lemma directLoop_payloads : ∀ steps : List DirectStep,
    payloadsOf (directLoop steps []).1 = directWritten steps
  | [] => rfl
  | .captureFail :: _ => rfl
  | .frame d ok :: rest => by
    cases ok with
    | true =>
      simp only [directLoop, directWritten, truncateBuf, if_pos]
      rw [payloadsOf_append, payloadsOf_framedPart, directLoop_payloads rest]
      simp
    | false =>
      simp [directLoop, directWritten, payloadsOf]

lemma directLoop_wellFramed : ∀ (steps : List DirectStep) (buf : Bytes),
    wellFramed (wireOf (directLoop steps buf).1) = true
  | [], _ => rfl
  | .captureFail :: _, _ => rfl
  | .frame d ok :: rest, buf => by
    cases ok with
    | true =>
      simp only [directLoop, if_pos]
      rw [wireOf_append, wireOf_framedPart, wellFramed_framedPart]
      exact directLoop_wellFramed rest (truncateBuf (buf ++ d))
    | false =>
      simp [directLoop, wireOf, wellFramed]

lemma directLoop_comm (steps : List DirectStep) (buf : Bytes) :
    commCallsOf (directLoop steps buf).1 = [] := by
  rw [commCallsOf, List.filter_eq_nil_iff]
  intro e he
  have hw := directLoop_all_wire steps buf e he
  cases e <;> simp_all [isWire, isPub]

lemma directLoop_countP_close (steps : List DirectStep) (buf : Bytes) :
    (directLoop steps buf).1.countP isClose = 0 := by
  rw [List.countP_eq_zero]
  intro e he
  have hw := directLoop_all_wire steps buf e he
  cases e <;> simp_all [isWire, isClose]

lemma directLoop_countP_open (steps : List DirectStep) (buf : Bytes) :
    (directLoop steps buf).1.countP isOpenEv = 0 := by
  rw [List.countP_eq_zero]
  intro e he
  have hw := directLoop_all_wire steps buf e he
  cases e <;> simp_all [isWire, isOpenEv]

/-! ### Loop-level lemmas: `streamAlgo` -/

/-- One unfolding step of the `streamAlgo` loop, given the body's
result. -/
lemma streamAlgo_cons (c : Bool) (st : AlgoStep) (rest : List AlgoStep)
    (evs : List Ev) (res : IterRes) (hb : algoIterBody c st = (evs, res)) :
    streamAlgo c (st :: rest) =
      match res with
      | .next => (evs ++ (streamAlgo c rest).1, (streamAlgo c rest).2)
      | .brokeLoop => (evs, .broke)
      | .raisedPull => (evs, .raisedPull) := by
  cases res <;> simp [streamAlgo, hb]

/-- Every event emitted by the algo loop body is a wire write, a
control-channel publication, or the algo-exception log line. -/
lemma algoIterBody_all (c : Bool) (st : AlgoStep) :
    ∀ e ∈ (algoIterBody c st).1, (isWire e || isPub e || (e == Ev.logAlgoExc)) = true := by
  intro e he
  obtain ⟨pl, pr, en, w⟩ := st
  rcases pl with _ | f
  · simp [algoIterBody] at he
  rcases pr with _ | ⟨v, fr⟩
  · simp [algoIterBody] at he; subst he; rfl
  rcases en with _ | jpg
  · simp [algoIterBody] at he
    have hp := commPub_all_pub c v e he
    simp [hp]
  cases w with
  | true =>
    simp [algoIterBody, framedPart] at he
    rcases he with h | rfl | rfl | rfl | rfl | rfl
    · have hp := commPub_all_pub c v e h
      simp [hp]
    · rfl
    · rfl
    · rfl
    · rfl
    · rfl
  | false =>
    simp [algoIterBody] at he
    rcases he with h | rfl
    · have hp := commPub_all_pub c v e h
      simp [hp]
    · rfl

/-- Every event emitted by the algo loop is a wire write, a publication
or the algo-exception log line. -/
lemma streamAlgo_all (c : Bool) : ∀ steps : List AlgoStep,
    ∀ e ∈ (streamAlgo c steps).1, (isWire e || isPub e || (e == Ev.logAlgoExc)) = true
  | [] => by intro e he; simp [streamAlgo] at he
  | st :: rest => by
    intro e he
    have hbody := algoIterBody_all c st
    rcases hb : algoIterBody c st with ⟨evs, res⟩
    rw [hb] at hbody
    rw [streamAlgo_cons c st rest evs res hb] at he
    cases res with
    | next =>
      simp at he
      rcases he with h | h
      · exact hbody e h
      · exact streamAlgo_all c rest e h
    | brokeLoop => exact hbody e he
    | raisedPull => exact hbody e he

lemma streamAlgo_countP_close (c : Bool) (steps : List AlgoStep) :
    (streamAlgo c steps).1.countP isClose = 0 := by
  rw [List.countP_eq_zero]
  intro e he
  have h := streamAlgo_all c steps e he
  cases e <;> simp_all [isWire, isPub, isClose]

lemma streamAlgo_countP_open (c : Bool) (steps : List AlgoStep) :
    (streamAlgo c steps).1.countP isOpenEv = 0 := by
  rw [List.countP_eq_zero]
  intro e he
  have h := streamAlgo_all c steps e he
  cases e <;> simp_all [isWire, isPub, isOpenEv]

lemma streamAlgo_payloads (c : Bool) : ∀ steps : List AlgoStep,
    payloadsOf (streamAlgo c steps).1 = algoWritten steps
  | [] => rfl
  | ⟨pl, pr, en, w⟩ :: rest => by
    rcases pl with _ | f
    · rw [streamAlgo_cons c _ rest _ _ (algoIterBody_pull_none c _ rfl)]
      rfl
    rcases pr with _ | ⟨v, fr⟩
    · rw [streamAlgo_cons c _ rest _ _ (algoIterBody_proc_none c _ f rfl rfl)]
      rfl
    rcases en with _ | jpg
    · rw [streamAlgo_cons c _ rest _ _ (algoIterBody_enc_none c _ f v fr rfl rfl rfl)]
      show payloadsOf (commPub c v ++ (streamAlgo c rest).1) = _
      rw [payloadsOf_append, commPub_payloads, streamAlgo_payloads c rest]
      rfl
    cases w with
    | true =>
      rw [streamAlgo_cons c _ rest _ _ (algoIterBody_write_ok c _ f v fr jpg rfl rfl rfl rfl)]
      show payloadsOf ((commPub c v ++ framedPart jpg) ++ (streamAlgo c rest).1) = _
      rw [payloadsOf_append, payloadsOf_append, commPub_payloads,
        payloadsOf_framedPart, streamAlgo_payloads c rest]
      rfl
    | false =>
      rw [streamAlgo_cons c _ rest _ _ (algoIterBody_write_fail c _ f v fr jpg rfl rfl rfl rfl)]
      show payloadsOf (commPub c v ++ [Ev.logAlgoExc]) = _
      rw [payloadsOf_append, commPub_payloads, payloadsOf_logAlgoExc]
      rfl

lemma streamAlgo_wellFramed (c : Bool) : ∀ steps : List AlgoStep,
    wellFramed (wireOf (streamAlgo c steps).1) = true
  | [] => rfl
  | ⟨pl, pr, en, w⟩ :: rest => by
    rcases pl with _ | f
    · rw [streamAlgo_cons c _ rest _ _ (algoIterBody_pull_none c _ rfl)]
      rfl
    rcases pr with _ | ⟨v, fr⟩
    · rw [streamAlgo_cons c _ rest _ _ (algoIterBody_proc_none c _ f rfl rfl)]
      rfl
    rcases en with _ | jpg
    · rw [streamAlgo_cons c _ rest _ _ (algoIterBody_enc_none c _ f v fr rfl rfl rfl)]
      show wellFramed (wireOf (commPub c v ++ (streamAlgo c rest).1)) = true
      rw [wireOf_append, commPub_wire]
      show wellFramed (wireOf (streamAlgo c rest).1) = true
      exact streamAlgo_wellFramed c rest
    cases w with
    | true =>
      rw [streamAlgo_cons c _ rest _ _ (algoIterBody_write_ok c _ f v fr jpg rfl rfl rfl rfl)]
      show wellFramed (wireOf ((commPub c v ++ framedPart jpg) ++ (streamAlgo c rest).1)) = true
      rw [wireOf_append, wireOf_append, commPub_wire, wireOf_framedPart]
      show wellFramed (framedPart jpg ++ wireOf (streamAlgo c rest).1) = true
      rw [wellFramed_framedPart]
      exact streamAlgo_wellFramed c rest
    | false =>
      rw [streamAlgo_cons c _ rest _ _ (algoIterBody_write_fail c _ f v fr jpg rfl rfl rfl rfl)]
      show wellFramed (wireOf (commPub c v ++ [Ev.logAlgoExc])) = true
      rw [wireOf_append, commPub_wire, wireOf_logAlgoExc]
      rfl

/-! ### Projection steps over non-wire prefix events -/

lemma wireOf_respStream_cons (l : List Ev) : wireOf (.respStream :: l) = wireOf l := rfl

lemma wireOf_camOpen_cons (l : List Ev) : wireOf (.camOpen :: l) = wireOf l := rfl

lemma payloadsOf_respStream_cons (l : List Ev) :
    payloadsOf (.respStream :: l) = payloadsOf l := rfl

lemma payloadsOf_camOpen_cons (l : List Ev) :
    payloadsOf (.camOpen :: l) = payloadsOf l := rfl

lemma commCallsOf_respStream_cons (l : List Ev) :
    commCallsOf (.respStream :: l) = commCallsOf l := rfl

lemma commCallsOf_camOpen_cons (l : List Ev) :
    commCallsOf (.camOpen :: l) = commCallsOf l := rfl

lemma wireOf_tail_plain : wireOf [Ev.logDone, Ev.camClose] = [] := rfl

lemma wireOf_tail_exc : wireOf [Ev.logExc, Ev.logDone, Ev.camClose] = [] := rfl

lemma payloadsOf_tail_plain : payloadsOf [Ev.logDone, Ev.camClose] = [] := rfl

lemma payloadsOf_tail_exc : payloadsOf [Ev.logExc, Ev.logDone, Ev.camClose] = [] := rfl

lemma commCallsOf_tail_plain : commCallsOf [Ev.logDone, Ev.camClose] = [] := rfl

lemma commCallsOf_tail_exc : commCallsOf [Ev.logExc, Ev.logDone, Ev.camClose] = [] := rfl

/-! ### `streamDirect` is the loop plus the `finally` -/

lemma streamDirect_fst (steps : List DirectStep) :
    (streamDirect steps).1 = (directLoop steps []).1 := rfl

lemma streamDirect_raised (steps : List DirectStep) :
    (streamDirect steps).2.2 = (directLoop steps []).2.2 := rfl

/-! ### Case equations for `do_GET` -/

lemma resolveMode_landing_iff (p : String) :
    resolveMode p = .landing ↔ (endswith p ".mjpg" || endswith p ".mjpeg") = false := by
  unfold resolveMode
  cases h : (endswith p ".mjpg" || endswith p ".mjpeg") with
  | false => simp [h]
  | true =>
    simp [h]
    split <;> simp

lemma doGET_landing (p : String) (sc : Script) (h : resolveMode p = .landing) :
    doGET p sc = ([.respHTML, .wHTML s_mainPage], .done) := by
  simp [doGET, h]

lemma doGET_open_fail (p : String) (sc : Script) (hm : resolveMode p ≠ .landing)
    (ho : sc.openOutcome ≠ .ok) :
    doGET p sc = ([.respStream, .logExc, .logDone, .logNoCam], .done) := by
  rcases hr : resolveMode p with _ | sel | _ <;>
    rcases hoo : sc.openOutcome with _ | _ | _ <;>
    simp_all [doGET]

lemma doGET_direct_ok (p : String) (sc : Script) (h : resolveMode p = .direct)
    (ho : sc.openOutcome = .ok) :
    doGET p sc =
      (.respStream :: .camOpen :: (streamDirect sc.directSteps).1 ++
        (if (streamDirect sc.directSteps).2.2 then [.logExc, .logDone, .camClose]
         else [.logDone, .camClose]),
       if sc.stopOk then .done else .raisedOut) := by
  simp [doGET, h, ho]

lemma doGET_algo_ranOut (p : String) (sc : Script) (sel : String) (evs : List Ev)
    (h : resolveMode p = .algo sel) (ho : sc.openOutcome = .ok)
    (hl : streamAlgo sc.comm sc.algoSteps = (evs, .ranOut)) :
    doGET p sc = (.respStream :: .camOpen :: evs, .running) := by
  simp [doGET, h, ho, hl]

lemma doGET_algo_broke (p : String) (sc : Script) (sel : String) (evs : List Ev)
    (h : resolveMode p = .algo sel) (ho : sc.openOutcome = .ok)
    (hl : streamAlgo sc.comm sc.algoSteps = (evs, .broke)) :
    doGET p sc = (.respStream :: .camOpen :: evs ++ [.logDone, .camClose],
      if sc.stopOk then .done else .raisedOut) := by
  simp [doGET, h, ho, hl]

lemma doGET_algo_raisedPull (p : String) (sc : Script) (sel : String) (evs : List Ev)
    (h : resolveMode p = .algo sel) (ho : sc.openOutcome = .ok)
    (hl : streamAlgo sc.comm sc.algoSteps = (evs, .raisedPull)) :
    doGET p sc = (.respStream :: .camOpen :: evs ++ [.logExc, .logDone, .camClose],
      if sc.stopOk then .done else .raisedOut) := by
  simp [doGET, h, ho, hl]

/-! ### Fully successful iterations and good prefixes -/

lemma streamAlgo_cons_next (c : Bool) (st : AlgoStep) (rest : List AlgoStep)
    (evs : List Ev) (hb : algoIterBody c st = (evs, .next)) :
    streamAlgo c (st :: rest) = (evs ++ (streamAlgo c rest).1, (streamAlgo c rest).2) := by
  simp [streamAlgo, hb]

lemma streamAlgo_cons_broke (c : Bool) (st : AlgoStep) (rest : List AlgoStep)
    (evs : List Ev) (hb : algoIterBody c st = (evs, .brokeLoop)) :
    streamAlgo c (st :: rest) = (evs, .broke) := by
  simp [streamAlgo, hb]

lemma streamAlgo_cons_raised (c : Bool) (st : AlgoStep) (rest : List AlgoStep)
    (evs : List Ev) (hb : algoIterBody c st = (evs, .raisedPull)) :
    streamAlgo c (st :: rest) = (evs, .raisedPull) := by
  simp [streamAlgo, hb]

/-- A fully successful step has concrete field shapes. -/
lemma stepOk_elim (st : AlgoStep) (h : stepOk st = true) :
    ∃ f v fr jpg, st.pull = some f ∧ st.proc = some (v, fr) ∧
      st.enc = some jpg ∧ st.writeOk = true := by
  obtain ⟨pl, pr, en, w⟩ := st
  simp only [stepOk, Bool.and_eq_true] at h
  obtain ⟨⟨⟨hp, hpr⟩, hen⟩, hw⟩ := h
  rcases pl with _ | f
  · simp at hp
  rcases pr with _ | ⟨v, fr⟩
  · simp at hpr
  rcases en with _ | jpg
  · simp at hen
  exact ⟨f, v, fr, jpg, rfl, rfl, rfl, hw⟩

/-- After a prefix of fully successful iterations, the loop exit is
that of the remaining script, and every event of the remainder is
still in the trace. -/
lemma streamAlgo_good_append (c : Bool) : ∀ (good tail : List AlgoStep),
    (∀ s ∈ good, stepOk s = true) →
    (streamAlgo c (good ++ tail)).2 = (streamAlgo c tail).2 ∧
    (∀ e ∈ (streamAlgo c tail).1, e ∈ (streamAlgo c (good ++ tail)).1)
  | [], _, _ => ⟨rfl, fun _ he => he⟩
  | st :: good, tail, hg => by
    obtain ⟨f, v, fr, jpg, hp, hpr, hen, hw⟩ := stepOk_elim st (hg st (by simp))
    have hb := algoIterBody_write_ok c st f v fr jpg hp hpr hen hw
    have ih := streamAlgo_good_append c good tail (fun s hs => hg s (by simp [hs]))
    rw [List.cons_append, streamAlgo_cons_next c st (good ++ tail) _ hb]
    refine ⟨ih.1, fun e he => ?_⟩
    exact List.mem_append_right _ (ih.2 e he)

/-- `algoWritten` over a fully successful prefix collects exactly that
prefix's encoded JPEGs, in order. -/
lemma algoWritten_good : ∀ (good tail : List AlgoStep),
    (∀ s ∈ good, stepOk s = true) →
    algoWritten (good ++ tail) = good.filterMap (fun s => s.enc) ++ algoWritten tail
  | [], _, _ => rfl
  | st :: good, tail, hg => by
    obtain ⟨f, v, fr, jpg, hp, hpr, hen, hw⟩ := stepOk_elim st (hg st (by simp))
    have ih := algoWritten_good good tail (fun s hs => hg s (by simp [hs]))
    simp [algoWritten, hp, hpr, hen, hw, ih, List.filterMap_cons]

lemma filterMap_enc_length : ∀ good : List AlgoStep,
    (∀ s ∈ good, stepOk s = true) →
    (good.filterMap (fun s => s.enc)).length = good.length
  | [], _ => rfl
  | st :: good, hg => by
    obtain ⟨f, v, fr, jpg, hp, hpr, hen, hw⟩ := stepOk_elim st (hg st (by simp))
    simp [List.filterMap_cons, hen,
      filterMap_enc_length good (fun s hs => hg s (by simp [hs]))]

lemma algoWritten_proc_none (st : AlgoStep) (rest : List AlgoStep) (f : Bytes)
    (hp : st.pull = some f) (h : st.proc = none) :
    algoWritten (st :: rest) = [] := by
  obtain ⟨pl, pr, en, w⟩ := st
  simp_all [algoWritten]

lemma algoWritten_write_fail (st : AlgoStep) (rest : List AlgoStep) (f : Bytes)
    (v : Option Int) (fr jpg : Bytes) (hp : st.pull = some f)
    (hpr : st.proc = some (v, fr)) (hen : st.enc = some jpg)
    (hw : st.writeOk = false) :
    algoWritten (st :: rest) = [] := by
  obtain ⟨pl, pr, en, w⟩ := st
  simp_all [algoWritten]

/-- A loop body that breaks always logged the algo exception. -/
lemma algoIterBody_broke_mem (c : Bool) (st : AlgoStep) (evs : List Ev)
    (hb : algoIterBody c st = (evs, .brokeLoop)) : Ev.logAlgoExc ∈ evs := by
  obtain ⟨pl, pr, en, w⟩ := st
  rcases pl with _ | f
  · simp [algoIterBody] at hb
  rcases pr with _ | ⟨v, fr⟩
  · simp [algoIterBody] at hb
    rw [← hb]
    simp
  rcases en with _ | jpg
  · simp [algoIterBody] at hb
  cases w with
  | true => simp [algoIterBody] at hb
  | false =>
    simp [algoIterBody] at hb
    rw [← hb]
    simp

/-! ### doGET-level projection computations -/

lemma doGET_wire_direct_ok (p : String) (sc : Script) (h : resolveMode p = .direct)
    (ho : sc.openOutcome = .ok) :
    wireOf (doGET p sc).1 = wireOf (directLoop sc.directSteps []).1 := by
  rw [doGET_direct_ok p sc h ho]
  cases hw : (streamDirect sc.directSteps).2.2 <;>
    simp [wireOf_respStream_cons, wireOf_camOpen_cons, wireOf_append,
      wireOf_tail_plain, wireOf_tail_exc, streamDirect_fst]

lemma doGET_payloads_direct_ok (p : String) (sc : Script) (h : resolveMode p = .direct)
    (ho : sc.openOutcome = .ok) :
    payloadsOf (doGET p sc).1 = directWritten sc.directSteps := by
  rw [doGET_direct_ok p sc h ho]
  cases hw : (streamDirect sc.directSteps).2.2 <;>
    simp [payloadsOf_respStream_cons, payloadsOf_camOpen_cons, payloadsOf_append,
      payloadsOf_tail_plain, payloadsOf_tail_exc, streamDirect_fst, directLoop_payloads]

lemma doGET_comm_direct_ok (p : String) (sc : Script) (h : resolveMode p = .direct)
    (ho : sc.openOutcome = .ok) :
    commCallsOf (doGET p sc).1 = [] := by
  rw [doGET_direct_ok p sc h ho]
  cases hw : (streamDirect sc.directSteps).2.2 <;>
    simp [commCallsOf_respStream_cons, commCallsOf_camOpen_cons, commCallsOf_append,
      commCallsOf_tail_plain, commCallsOf_tail_exc, streamDirect_fst, directLoop_comm]

lemma doGET_wire_algo_ok (p : String) (sc : Script) (sel : String)
    (h : resolveMode p = .algo sel) (ho : sc.openOutcome = .ok) :
    wireOf (doGET p sc).1 = wireOf (streamAlgo sc.comm sc.algoSteps).1 := by
  rcases hl : streamAlgo sc.comm sc.algoSteps with ⟨evs, ex⟩
  cases ex
  · rw [doGET_algo_ranOut p sc sel evs h ho hl]
    simp [wireOf_respStream_cons, wireOf_camOpen_cons]
  · rw [doGET_algo_broke p sc sel evs h ho hl]
    simp [wireOf_respStream_cons, wireOf_camOpen_cons, wireOf_append, wireOf_tail_plain]
  · rw [doGET_algo_raisedPull p sc sel evs h ho hl]
    simp [wireOf_respStream_cons, wireOf_camOpen_cons, wireOf_append, wireOf_tail_exc]

lemma doGET_payloads_algo_ok (p : String) (sc : Script) (sel : String)
    (h : resolveMode p = .algo sel) (ho : sc.openOutcome = .ok) :
    payloadsOf (doGET p sc).1 = algoWritten sc.algoSteps := by
  have hp := streamAlgo_payloads sc.comm sc.algoSteps
  rcases hl : streamAlgo sc.comm sc.algoSteps with ⟨evs, ex⟩
  rw [hl] at hp
  cases ex
  · rw [doGET_algo_ranOut p sc sel evs h ho hl]
    simpa [payloadsOf_respStream_cons, payloadsOf_camOpen_cons] using hp
  · rw [doGET_algo_broke p sc sel evs h ho hl]
    simpa [payloadsOf_respStream_cons, payloadsOf_camOpen_cons, payloadsOf_append,
      payloadsOf_tail_plain] using hp
  · rw [doGET_algo_raisedPull p sc sel evs h ho hl]
    simpa [payloadsOf_respStream_cons, payloadsOf_camOpen_cons, payloadsOf_append,
      payloadsOf_tail_exc] using hp

/-- The whole wire output of any `do_GET` call is well-framed. -/
lemma doGET_wellFramed (p : String) (sc : Script) :
    wellFramed (wireOf (doGET p sc).1) = true := by
  rcases hr : resolveMode p with _ | sel | _
  · rcases ho : sc.openOutcome with _ | _ | _
    · rw [doGET_wire_direct_ok p sc hr ho]
      exact directLoop_wellFramed sc.directSteps []
    · rw [doGET_open_fail p sc (by simp [hr]) (by simp [ho])]
      rfl
    · rw [doGET_open_fail p sc (by simp [hr]) (by simp [ho])]
      rfl
  · rcases ho : sc.openOutcome with _ | _ | _
    · rw [doGET_wire_algo_ok p sc sel hr ho]
      exact streamAlgo_wellFramed sc.comm sc.algoSteps
    · rw [doGET_open_fail p sc (by simp [hr]) (by simp [ho])]
      rfl
    · rw [doGET_open_fail p sc (by simp [hr]) (by simp [ho])]
      rfl
  · rw [doGET_landing p sc hr]
    rfl

/-! ## Claim theorems -/

/-- C1: for every streaming request whose session terminates, the
camera release `cam.stop()` (line 63) appears in the trace exactly
once when the open succeeded — on every exit path — and never when
acquisition failed, in which case no open event appears either. -/
theorem C1_close_exactly_once_per_open (p : String) (sc : Script)
    (hstream : (endswith p ".mjpg" || endswith p ".mjpeg") = true)
    (hterm : (doGET p sc).2 ≠ Outcome.running) :
    (doGET p sc).1.countP isClose = (if sc.openOutcome = .ok then 1 else 0) ∧
    (doGET p sc).1.countP isOpenEv = (if sc.openOutcome = .ok then 1 else 0) := by
  have hm : resolveMode p ≠ .landing := by
    intro h
    rw [resolveMode_landing_iff] at h
    simp [h] at hstream
  rcases hr : resolveMode p with _ | sel | _
  · rcases ho : sc.openOutcome with _ | _ | _
    · rw [doGET_direct_ok p sc hr ho, streamDirect_fst, streamDirect_raised]
      cases hw : (directLoop sc.directSteps []).2.2 <;>
        simp [List.countP_cons, List.countP_append, directLoop_countP_close,
          directLoop_countP_open, isClose, isOpenEv]
    · rw [doGET_open_fail p sc hm (by simp [ho])]
      exact ⟨rfl, rfl⟩
    · rw [doGET_open_fail p sc hm (by simp [ho])]
      exact ⟨rfl, rfl⟩
  · rcases ho : sc.openOutcome with _ | _ | _
    · rcases hl : streamAlgo sc.comm sc.algoSteps with ⟨evs, ex⟩
      have hc : evs.countP isClose = 0 := by
        have h0 := streamAlgo_countP_close sc.comm sc.algoSteps
        rw [hl] at h0
        simpa using h0
      have hop : evs.countP isOpenEv = 0 := by
        have h0 := streamAlgo_countP_open sc.comm sc.algoSteps
        rw [hl] at h0
        simpa using h0
      cases ex
      · exact absurd (by rw [doGET_algo_ranOut p sc sel evs hr ho hl]) hterm
      · rw [doGET_algo_broke p sc sel evs hr ho hl]
        simp [List.countP_cons, List.countP_append, hc, hop, isClose, isOpenEv]
      · rw [doGET_algo_raisedPull p sc sel evs hr ho hl]
        simp [List.countP_cons, List.countP_append, hc, hop, isClose, isOpenEv]
    · rw [doGET_open_fail p sc hm (by simp [ho])]
      exact ⟨rfl, rfl⟩
    · rw [doGET_open_fail p sc hm (by simp [ho])]
      exact ⟨rfl, rfl⟩
  · exact absurd hr hm

/-- Witness for C1 at a concrete terminating direct session. -/
theorem C1_close_exactly_once_per_open_witness :
    (doGET "/direct.mjpg" ⟨.ok, [.frame [1, 2] true], [], false, true⟩).1.countP isClose = 1 ∧
    (doGET "/direct.mjpg" ⟨.ok, [.frame [1, 2] true], [], false, true⟩).1.countP isOpenEv = 1 := by
  have h := C1_close_exactly_once_per_open "/direct.mjpg"
    ⟨.ok, [.frame [1, 2] true], [], false, true⟩ (by decide) (by decide)
  simpa using h

/-- C2: a path ending in `.mjpg`/`.mjpeg` resolves to Direct when its
final segment's stem is exactly `"direct"`, and to Algo with the stem
passed through unchanged otherwise; every other path is answered with
the static landing page and no session. -/
theorem C2_mode_resolution (p : String) (sc : Script) :
    ((endswith p ".mjpg" || endswith p ".mjpeg") = true →
      (algostr p = "direct" → resolveMode p = .direct) ∧
      (algostr p ≠ "direct" → resolveMode p = .algo (algostr p))) ∧
    ((endswith p ".mjpg" || endswith p ".mjpeg") = false →
      doGET p sc = ([.respHTML, .wHTML s_mainPage], .done)) := by
  refine ⟨fun hs => ⟨fun hd => ?_, fun hd => ?_⟩, fun hs => ?_⟩
  · simp [resolveMode, hs, hd]
  · simp [resolveMode, hs, hd]
  · exact doGET_landing p sc ((resolveMode_landing_iff p).mpr hs)

/-- Witness for C2 at concrete paths. -/
theorem C2_mode_resolution_witness :
    resolveMode "/direct.mjpg" = .direct ∧
    resolveMode "/cam.mjpg" = .algo "cam" ∧
    doGET "/" ⟨.ok, [], [], false, true⟩ = ([.respHTML, .wHTML s_mainPage], .done) := by
  refine ⟨((C2_mode_resolution "/direct.mjpg" ⟨.ok, [], [], false, true⟩).1
      (by decide)).1 (by decide), ?_,
    (C2_mode_resolution "/" ⟨.ok, [], [], false, true⟩).2 (by decide)⟩
  have h := ((C2_mode_resolution "/cam.mjpg" ⟨.ok, [], [], false, true⟩).1
    (by decide)).2 (by decide)
  have ha : algostr "/cam.mjpg" = "cam" := by decide
  rw [ha] at h
  exact h

/-- C3: the wire output of any session is a sequence of exactly framed
parts (boundary, Content-type, Content-length equal to the payload's
byte length, blank line, payload), and the payloads appear in capture
order: the written frames of the direct script, resp. the encoded
JPEGs of the algo script. -/
theorem C3_part_framing (p : String) (sc : Script) :
    wellFramed (wireOf (doGET p sc).1) = true ∧
    (resolveMode p = .direct → sc.openOutcome = .ok →
      payloadsOf (doGET p sc).1 = directWritten sc.directSteps) ∧
    (∀ sel, resolveMode p = .algo sel → sc.openOutcome = .ok →
      payloadsOf (doGET p sc).1 = algoWritten sc.algoSteps) :=
  ⟨doGET_wellFramed p sc,
    fun h ho => doGET_payloads_direct_ok p sc h ho,
    fun sel h ho => doGET_payloads_algo_ok p sc sel h ho⟩

/-- Witness for C3 at concrete direct and algo sessions. -/
theorem C3_part_framing_witness :
    wellFramed (wireOf (doGET "/direct.mjpg"
      ⟨.ok, [.frame [9] true, .frame [8, 7] true], [], false, true⟩).1) = true ∧
    payloadsOf (doGET "/direct.mjpg"
      ⟨.ok, [.frame [9] true, .frame [8, 7] true], [], false, true⟩).1 = [[9], [8, 7]] ∧
    payloadsOf (doGET "/cam.mjpg"
      ⟨.ok, [], [⟨some [1], some (some 5, [2]), some [3, 4], true⟩], true, true⟩).1 = [[3, 4]] := by
  refine ⟨(C3_part_framing "/direct.mjpg"
    ⟨.ok, [.frame [9] true, .frame [8, 7] true], [], false, true⟩).1, ?_, ?_⟩
  · have h := (C3_part_framing "/direct.mjpg"
      ⟨.ok, [.frame [9] true, .frame [8, 7] true], [], false, true⟩).2.1 (by decide) (by decide)
    rw [h]
    decide
  · have h := (C3_part_framing "/cam.mjpg"
      ⟨.ok, [], [⟨some [1], some (some 5, [2]), some [3, 4], true⟩], true, true⟩).2.2
      "cam" (by decide) (by decide)
    rw [h]
    decide

/-- C4: in Algo mode, when `processFrame` raises on iteration k of an
otherwise successful stream, exactly the k-1 earlier parts were
written, nothing further is written, the failure is logged, the loop
terminates, and the camera is closed exactly once. -/
theorem C4_algo_failure_terminates (p : String) (sc : Script) (sel : String)
    (good : List AlgoStep) (bad : AlgoStep) (rest : List AlgoStep) (f : Bytes)
    (hm : resolveMode p = .algo sel)
    (ho : sc.openOutcome = .ok)
    (hsteps : sc.algoSteps = good ++ bad :: rest)
    (hg : ∀ s ∈ good, stepOk s = true)
    (hbp : bad.pull = some f)
    (hbproc : bad.proc = none) :
    payloadsOf (doGET p sc).1 = good.filterMap (fun s => s.enc) ∧
    (payloadsOf (doGET p sc).1).length = good.length ∧
    Ev.logAlgoExc ∈ (doGET p sc).1 ∧
    (doGET p sc).1.countP isClose = 1 ∧
    (doGET p sc).2 ≠ Outcome.running := by
  have hpay : payloadsOf (doGET p sc).1 = good.filterMap (fun s => s.enc) := by
    rw [doGET_payloads_algo_ok p sc sel hm ho, hsteps,
      algoWritten_good good (bad :: rest) hg,
      algoWritten_proc_none bad rest f hbp hbproc, List.append_nil]
  have hbody := algoIterBody_proc_none sc.comm bad f hbp hbproc
  have hexit : (streamAlgo sc.comm sc.algoSteps).2 = .broke := by
    rw [hsteps, (streamAlgo_good_append sc.comm good (bad :: rest) hg).1,
      streamAlgo_cons_broke sc.comm bad rest _ hbody]
  have hmem : Ev.logAlgoExc ∈ (streamAlgo sc.comm sc.algoSteps).1 := by
    rw [hsteps]
    apply (streamAlgo_good_append sc.comm good (bad :: rest) hg).2
    rw [streamAlgo_cons_broke sc.comm bad rest _ hbody]
    simp
  rcases hl : streamAlgo sc.comm sc.algoSteps with ⟨evs, ex⟩
  rw [hl] at hexit hmem
  have hex : ex = .broke := hexit
  subst hex
  have hmem' : Ev.logAlgoExc ∈ evs := by simpa using hmem
  have hc : evs.countP isClose = 0 := by
    have h0 := streamAlgo_countP_close sc.comm sc.algoSteps
    rw [hl] at h0
    simpa using h0
  refine ⟨hpay, ?_, ?_, ?_, ?_⟩
  · rw [hpay]
    exact filterMap_enc_length good hg
  · rw [doGET_algo_broke p sc sel evs hm ho hl]
    simp [hmem']
  · rw [doGET_algo_broke p sc sel evs hm ho hl]
    simp [List.countP_cons, List.countP_append, hc, isClose]
  · rw [doGET_algo_broke p sc sel evs hm ho hl]
    cases sc.stopOk <;> simp
/-- Witness for C4: four successful iterations, then `processFrame`
raises on iteration 5 — exactly 4 parts, one close, failure logged. -/
theorem C4_algo_failure_terminates_witness :
    payloadsOf (doGET "/cam.mjpg" ⟨.ok, [],
      [⟨some [1], some (some 1, [1]), some [10], true⟩,
       ⟨some [2], some (some 2, [2]), some [20], true⟩,
       ⟨some [3], some (none, [3]), some [30], true⟩,
       ⟨some [4], some (some 4, [4]), some [40], true⟩,
       ⟨some [5], none, none, true⟩], true, true⟩).1 = [[10], [20], [30], [40]] ∧
    (doGET "/cam.mjpg" ⟨.ok, [],
      [⟨some [1], some (some 1, [1]), some [10], true⟩,
       ⟨some [2], some (some 2, [2]), some [20], true⟩,
       ⟨some [3], some (none, [3]), some [30], true⟩,
       ⟨some [4], some (some 4, [4]), some [40], true⟩,
       ⟨some [5], none, none, true⟩], true, true⟩).1.countP isClose = 1 ∧
    Ev.logAlgoExc ∈ (doGET "/cam.mjpg" ⟨.ok, [],
      [⟨some [1], some (some 1, [1]), some [10], true⟩,
       ⟨some [2], some (some 2, [2]), some [20], true⟩,
       ⟨some [3], some (none, [3]), some [30], true⟩,
       ⟨some [4], some (some 4, [4]), some [40], true⟩,
       ⟨some [5], none, none, true⟩], true, true⟩).1 := by
  have h := C4_algo_failure_terminates "/cam.mjpg" ⟨.ok, [],
      [⟨some [1], some (some 1, [1]), some [10], true⟩,
       ⟨some [2], some (some 2, [2]), some [20], true⟩,
       ⟨some [3], some (none, [3]), some [30], true⟩,
       ⟨some [4], some (some 4, [4]), some [40], true⟩,
       ⟨some [5], none, none, true⟩], true, true⟩ "cam"
      [⟨some [1], some (some 1, [1]), some [10], true⟩,
       ⟨some [2], some (some 2, [2]), some [20], true⟩,
       ⟨some [3], some (none, [3]), some [30], true⟩,
       ⟨some [4], some (some 4, [4]), some [40], true⟩]
      ⟨some [5], none, none, true⟩ [] [5]
      (by decide) (by decide) (by decide) (by decide) (by decide) (by decide)
  exact ⟨by rw [h.1]; decide, h.2.2.2.1, h.2.2.1⟩

/-- C5: an encode failure (falsy `rc` from `imencode`) skips the
iteration — no part written — and the loop continues with the same
trace and exit as if the iteration had not happened; every other
per-frame failure (`processFrame` raising, `cam.next` raising, a
failed client write) ends the loop. -/
theorem C5_encode_failure_recoverable (c : Bool) (st : AlgoStep) (rest : List AlgoStep) :
    (∀ f v fr, st.pull = some f → st.proc = some (v, fr) → st.enc = none →
      payloadsOf (streamAlgo c (st :: rest)).1 = payloadsOf (streamAlgo c rest).1 ∧
      (streamAlgo c (st :: rest)).2 = (streamAlgo c rest).2) ∧
    (∀ f, st.pull = some f → st.proc = none →
      (streamAlgo c (st :: rest)).2 = .broke) ∧
    (st.pull = none → (streamAlgo c (st :: rest)).2 = .raisedPull) ∧
    (∀ f v fr jpg, st.pull = some f → st.proc = some (v, fr) → st.enc = some jpg →
      st.writeOk = false → (streamAlgo c (st :: rest)).2 = .broke) := by
  refine ⟨fun f v fr hp hpr he => ?_,
    fun f hp hpr => ?_, fun hp => ?_, fun f v fr jpg hp hpr he hw => ?_⟩
  · rw [streamAlgo_cons_next c st rest _ (algoIterBody_enc_none c st f v fr hp hpr he)]
    constructor
    · show payloadsOf (commPub c v ++ (streamAlgo c rest).1) = _
      rw [payloadsOf_append, commPub_payloads, List.nil_append]
    · rfl
  · rw [streamAlgo_cons_broke c st rest _ (algoIterBody_proc_none c st f hp hpr)]
  · rw [streamAlgo_cons_raised c st rest _ (algoIterBody_pull_none c st hp)]
  · rw [streamAlgo_cons_broke c st rest _ (algoIterBody_write_fail c st f v fr jpg hp hpr he hw)]

/-- Witness for C5: an encode-failure iteration writes nothing and the
next iteration still writes its part. -/
theorem C5_encode_failure_recoverable_witness :
    payloadsOf (streamAlgo true [⟨some [1], some (some 2, [3]), none, true⟩,
      ⟨some [4], some (some 5, [6]), some [7], true⟩]).1 = [[7]] ∧
    (streamAlgo true [⟨some [1], some (some 2, [3]), none, true⟩,
      ⟨some [4], some (some 5, [6]), some [7], true⟩]).2 = AlgoExit.ranOut := by
  have h := (C5_encode_failure_recoverable true ⟨some [1], some (some 2, [3]), none, true⟩
      [⟨some [4], some (some 5, [6]), some [7], true⟩]).1 [1] (some 2) [3] rfl rfl rfl
  refine ⟨?_, ?_⟩
  · rw [h.1]
    decide
  · rw [h.2]
    decide

/-- C6: with the ControlChannel configured and in Algo mode, an
iteration with a present detection value publishes exactly
`publishState("Acquired")` then `publishTarget(value)`, one with an
absent value publishes exactly `publishState("Searching")`; in Direct
mode no ControlChannel call is ever made. -/
theorem C6_comm_publication :
    (∀ (st : AlgoStep) (f : Bytes) (v : Int) (fr : Bytes),
      st.pull = some f → st.proc = some (some v, fr) →
      commCallsOf (algoIterBody true st).1 = [.pubState "Acquired", .pubTarget v]) ∧
    (∀ (st : AlgoStep) (f fr : Bytes),
      st.pull = some f → st.proc = some (none, fr) →
      commCallsOf (algoIterBody true st).1 = [.pubState "Searching"]) ∧
    (∀ (p : String) (sc : Script), resolveMode p = .direct →
      commCallsOf (doGET p sc).1 = []) := by
  have key : ∀ (st : AlgoStep) (f : Bytes) (v : Option Int) (fr : Bytes),
      st.pull = some f → st.proc = some (v, fr) →
      commCallsOf (algoIterBody true st).1 = commPub true v := by
    intro st f v fr hp hpr
    rcases hen : st.enc with _ | jpg
    · rw [algoIterBody_enc_none true st f v fr hp hpr hen]
      exact commPub_comm true v
    · cases hw : st.writeOk with
      | true =>
        rw [algoIterBody_write_ok true st f v fr jpg hp hpr hen hw]
        show commCallsOf (commPub true v ++ framedPart jpg) = _
        rw [commCallsOf_append, commPub_comm, commCallsOf_framedPart, List.append_nil]
      | false =>
        rw [algoIterBody_write_fail true st f v fr jpg hp hpr hen hw]
        show commCallsOf (commPub true v ++ [Ev.logAlgoExc]) = _
        rw [commCallsOf_append, commPub_comm, commCallsOf_logAlgoExc, List.append_nil]
  refine ⟨fun st f v fr hp hpr => ?_, fun st f fr hp hpr => ?_, ?_⟩
  · rw [key st f (some v) fr hp hpr]
    rfl
  · rw [key st f none fr hp hpr]
    rfl
  · intro p sc h
    rcases ho : sc.openOutcome with _ | _ | _
    · exact doGET_comm_direct_ok p sc h ho
    · rw [doGET_open_fail p sc (by simp [h]) (by simp [ho])]
      rfl
    · rw [doGET_open_fail p sc (by simp [h]) (by simp [ho])]
      rfl

/-- Witness for C6 at concrete iterations and a concrete direct
session. -/
theorem C6_comm_publication_witness :
    commCallsOf (algoIterBody true ⟨some [1], some (some 9, [2]), some [3], true⟩).1 =
      [.pubState "Acquired", .pubTarget 9] ∧
    commCallsOf (algoIterBody true ⟨some [1], some (none, [2]), some [3], true⟩).1 =
      [.pubState "Searching"] ∧
    commCallsOf (doGET "/direct.mjpg" ⟨.ok, [.frame [5] true], [], true, true⟩).1 = [] :=
  ⟨C6_comm_publication.1 ⟨some [1], some (some 9, [2]), some [3], true⟩ [1] 9 [2] rfl rfl,
   C6_comm_publication.2.1 ⟨some [1], some (none, [2]), some [3], true⟩ [1] [2] rfl rfl,
   C6_comm_publication.2.2 "/direct.mjpg" ⟨.ok, [.frame [5] true], [], true, true⟩ (by decide)⟩

/-- C7 as stated is false on the code: `cam.stop()` (line 63) runs
outside the `try`/`except`, so a release failure is neither caught nor
logged — it propagates out of `do_GET`.  Concretely: a direct session
with a successful open whose `stop` fails ends with the exception
escaping the handler. -/
theorem C7_counterexample :
    (doGET "/direct.mjpg" ⟨.ok, [], [], false, false⟩).2 = Outcome.raisedOut := by
  decide

/-- C7 amended: for every terminating stream session with a successful
open, the exception propagates out of `do_GET` exactly when
`cam.stop()` fails; release failures are not contained (and not
logged) by the handler. -/
theorem C7_amended_release_propagates (p : String) (sc : Script)
    (hstream : (endswith p ".mjpg" || endswith p ".mjpeg") = true)
    (ho : sc.openOutcome = .ok)
    (hterm : (doGET p sc).2 ≠ Outcome.running) :
    ((doGET p sc).2 = Outcome.raisedOut ↔ sc.stopOk = false) := by
  have hm : resolveMode p ≠ .landing := by
    intro h
    rw [resolveMode_landing_iff] at h
    simp [h] at hstream
  rcases hr : resolveMode p with _ | sel | _
  · rw [doGET_direct_ok p sc hr ho]
    cases sc.stopOk <;> simp
  · rcases hl : streamAlgo sc.comm sc.algoSteps with ⟨evs, ex⟩
    cases ex
    · exact absurd (by rw [doGET_algo_ranOut p sc sel evs hr ho hl]) hterm
    · rw [doGET_algo_broke p sc sel evs hr ho hl]
      cases sc.stopOk <;> simp
    · rw [doGET_algo_raisedPull p sc sel evs hr ho hl]
      cases sc.stopOk <;> simp
  · exact absurd hr hm

/-- Witness for the amended C7: a failing `stop` after an algo session
makes `do_GET` raise. -/
theorem C7_amended_release_propagates_witness :
    (doGET "/cam.mjpg" ⟨.ok, [], [⟨some [1], none, none, true⟩], true, false⟩).2 =
      Outcome.raisedOut := by
  have h := C7_amended_release_propagates "/cam.mjpg"
    ⟨.ok, [], [⟨some [1], none, none, true⟩], true, false⟩ (by decide) rfl (by decide)
  exact h.mpr rfl

/-- C8 as stated is false on the code: a client disconnect (failed
write) in Algo mode is caught by the same `except` as algorithm
failures and logged with `"algo exception"` plus a full traceback
(lines 121-127) — not silently. -/
theorem C8_counterexample :
    Ev.logAlgoExc ∈ (doGET "/cam.mjpg"
      ⟨.ok, [], [⟨some [1], some (some 7, [2]), some [3], false⟩], false, true⟩).1 := by
  decide

/-- C8 amended: a client disconnect does terminate the session and is
fully contained — the loop breaks, teardown runs, the camera is closed
exactly once and `do_GET` returns normally — but it is logged like any
other exception, not silently. -/
theorem C8_amended_disconnect_contained (p : String) (sc : Script) (sel : String)
    (good : List AlgoStep) (st : AlgoStep) (rest : List AlgoStep)
    (f fr jpg : Bytes) (v : Option Int)
    (hm : resolveMode p = .algo sel) (ho : sc.openOutcome = .ok)
    (hsteps : sc.algoSteps = good ++ st :: rest)
    (hg : ∀ s ∈ good, stepOk s = true)
    (hp : st.pull = some f) (hpr : st.proc = some (v, fr))
    (he : st.enc = some jpg) (hw : st.writeOk = false)
    (hstop : sc.stopOk = true) :
    (doGET p sc).2 = Outcome.done ∧
    (doGET p sc).1.countP isClose = 1 ∧
    Ev.logAlgoExc ∈ (doGET p sc).1 := by
  have hbody := algoIterBody_write_fail sc.comm st f v fr jpg hp hpr he hw
  have hexit : (streamAlgo sc.comm sc.algoSteps).2 = .broke := by
    rw [hsteps, (streamAlgo_good_append sc.comm good (st :: rest) hg).1,
      streamAlgo_cons_broke sc.comm st rest _ hbody]
  have hmem : Ev.logAlgoExc ∈ (streamAlgo sc.comm sc.algoSteps).1 := by
    rw [hsteps]
    apply (streamAlgo_good_append sc.comm good (st :: rest) hg).2
    rw [streamAlgo_cons_broke sc.comm st rest _ hbody]
    simp
  rcases hl : streamAlgo sc.comm sc.algoSteps with ⟨evs, ex⟩
  rw [hl] at hexit hmem
  have hex : ex = .broke := hexit
  subst hex
  have hmem' : Ev.logAlgoExc ∈ evs := by simpa using hmem
  have hc : evs.countP isClose = 0 := by
    have h0 := streamAlgo_countP_close sc.comm sc.algoSteps
    rw [hl] at h0
    simpa using h0
  refine ⟨?_, ?_, ?_⟩
  · rw [doGET_algo_broke p sc sel evs hm ho hl, hstop]
    rfl
  · rw [doGET_algo_broke p sc sel evs hm ho hl]
    simp [List.countP_cons, List.countP_append, hc, isClose]
  · rw [doGET_algo_broke p sc sel evs hm ho hl]
    simp [hmem']

/-- Witness for the amended C8 at a concrete disconnecting session. -/
theorem C8_amended_disconnect_contained_witness :
    (doGET "/cam.mjpg" ⟨.ok, [],
      [⟨some [1], some (some 7, [2]), some [3], false⟩], false, true⟩).2 = Outcome.done ∧
    (doGET "/cam.mjpg" ⟨.ok, [],
      [⟨some [1], some (some 7, [2]), some [3], false⟩], false, true⟩).1.countP isClose = 1 := by
  have h := C8_amended_disconnect_contained "/cam.mjpg"
    ⟨.ok, [], [⟨some [1], some (some 7, [2]), some [3], false⟩], false, true⟩ "cam"
    [] ⟨some [1], some (some 7, [2]), some [3], false⟩ [] [1] [2] [3] (some 7)
    (by decide) rfl rfl (by simp) rfl rfl rfl rfl rfl
  exact ⟨h.1, h.2.1⟩

/-- C9 as stated is false on the code: classification is the raw
`endswith` test only, so a path with characters after a `.mjpg`
occurrence is NOT always answered with the landing page — it streams
whenever the full path still ends in `.mjpg`/`.mjpeg`.  Concretely,
`/cam.mjpg?x=1.mjpg` extends `/cam.mjpg` (which ends in `.mjpg`) by a
non-empty query string, yet the dispatcher acquires the camera. -/
theorem C9_counterexample :
    ("/cam.mjpg?x=1.mjpg" = "/cam.mjpg" ++ "?x=1.mjpg") ∧
    endswith "/cam.mjpg" ".mjpg" = true ∧
    ("?x=1.mjpg" ≠ "") ∧
    resolveMode "/cam.mjpg?x=1.mjpg" ≠ .landing ∧
    (doGET "/cam.mjpg?x=1.mjpg" ⟨.ok, [], [], false, true⟩).1.countP isOpenEv = 1 := by
  exact ⟨by decide, by decide, by decide, by decide, by decide⟩

/-- C9 amended: stream classification tests only whether the raw
request path ends with `.mjpg` or `.mjpeg`; a request is answered with
the static landing page (and the camera is never acquired) exactly
when the full raw path fails that test — in particular for a query
string such as `/cam.mjpg?x=1`. -/
theorem C9_amended_suffix_test_only (p : String) (sc : Script) :
    (resolveMode p = .landing ↔ (endswith p ".mjpg" || endswith p ".mjpeg") = false) ∧
    (resolveMode p = .landing →
      doGET p sc = ([.respHTML, .wHTML s_mainPage], .done)) := by
  exact ⟨resolveMode_landing_iff p, fun h => doGET_landing p sc h⟩

/-- Witness for the amended C9: `/cam.mjpg?x=1` gets the landing page
and opens nothing. -/
theorem C9_amended_suffix_test_only_witness :
    doGET "/cam.mjpg?x=1" ⟨.ok, [], [], false, true⟩ =
      ([.respHTML, .wHTML s_mainPage], .done) := by
  exact (C9_amended_suffix_test_only "/cam.mjpg?x=1" ⟨.ok, [], [], false, true⟩).2 (by decide)

/-- C10: in Direct mode the capture buffer is reset after every written
part and unconditionally at loop exit, so each written part's payload
is exactly the single frame captured that iteration — no accumulation
— and the buffer is empty after the `finally`. -/
theorem C10_direct_buffer_reset (steps : List DirectStep) :
    payloadsOf (streamDirect steps).1 = directWritten steps ∧
    (streamDirect steps).2.1 = [] := by
  refine ⟨?_, rfl⟩
  rw [streamDirect_fst]
  exact directLoop_payloads steps

end PicamStreamer
